import Mathlib

/-!
# Verification of the progress-gating, quiz, review and tutoring logic of an
# Arabic-alphabet learning application

This file embeds, as Lean definitions, the decision logic of a React
language-learning application (`frontend/src/App.js` and an earlier
application version kept alongside it):

* `canAccessLetter` — sequential lesson unlocking over a per-letter progress
  list (`App.js`, Dashboard components);
* `fetchQuizOptions` / `startReviewOptions` — multiple-choice option
  generation for the quiz page and the review mode (`App.js`, `fetchQuizData`
  and `startReview`);
* `reviewScore` — the client-side binary scoring of a review answer
  (`App.js`, `submitReviewAnswer`);
* `sendMessage` — the AI-tutor chat turn, including its failure path
  (`App.js`, `AITutorChat.sendMessage`);
* `markAsCompleted` and `navigateToLetter` — the lesson player's
  completion post and previous/next navigation (`App.js`, `LessonPlayer`).

Server-side handlers (quiz scoring, XP crediting, the review queue and the
TTS cache) are not part of the checked sources; where a property depends on
them they are modelled from the design specification and marked as such in
their doc comments (`submitAnswer`, `applySubmission`, `computeReviewQueue`,
`getAudio`, `recordExchange`).

The randomized shuffles written in the source as
`.sort(() => 0.5 - Math.random())` are modelled by explicit shuffle
parameters; theorems that depend on them only assume they permute their
input.
-/

namespace Emergent

/-- A per-user, per-letter progress record. Field names follow the JSON
documents exchanged with the `/api/progress` endpoint (`letter_id`,
`completed`, `score`, `attempts`, `xp_earned`) plus the `last_updated`
timestamp of the data model, here an abstract tick count. -/
structure ProgressRecord where
  letter_id : Nat
  completed : Bool
  score : Nat
  attempts : Nat
  xp_earned : Nat
  last_updated : Nat
deriving Repr, DecidableEq

/-- `App.js` `getProgressForLetter`:
`progress.find(p => p.letter_id === letterId)`. -/
def getProgressForLetter (progress : List ProgressRecord) (letterId : Nat) :
    Option ProgressRecord :=
  progress.find? (fun p => p.letter_id == letterId)

/-- `App.js` `canAccessLetter`:
letter 1 is always accessible; otherwise look up the previous letter's
progress record and return its `completed` flag, `false` when the record is
missing (`prevLetterProgress?.completed || false`). -/
def canAccessLetter (progress : List ProgressRecord) (letterId : Nat) : Bool :=
  if letterId == 1 then true
  else ((getProgressForLetter progress (letterId - 1)).map ProgressRecord.completed).getD false

/-- A progress list is prefix-closed when every completed letter beyond the
first has its predecessor letter completed as well.  Progress lists produced
by normal operation of the application satisfy this, since a lesson can only
be completed after its predecessor was completed. -/
def PrefixClosed (progress : List ProgressRecord) : Prop :=
  ∀ r ∈ progress, r.completed = true → 1 < r.letter_id →
    ∃ s ∈ progress, s.letter_id = r.letter_id - 1 ∧ s.completed = true

instance (progress : List ProgressRecord) : Decidable (PrefixClosed progress) := by
  unfold PrefixClosed
  infer_instance

/-- A catalog entry for one Arabic letter, restricted to the fields the
embedded logic reads (`id`, display strings). -/
structure LetterEntry where
  id : Nat
  arabic : String
  name : String
  pronunciation : String
deriving Repr, DecidableEq

/-- `App.js` `fetchQuizData`, option-building part:
`wrongLetters = allLetters.filter(l => l.id !== letterId).sort(shuffle).slice(0, 3)`
then `[correctLetter, ...wrongLetters].sort(shuffle)`.  The two randomized
sorts are modelled by the `shuffleDecoys` and `shuffleOptions` parameters. -/
def fetchQuizOptions (allLetters : List LetterEntry) (letterId : Nat)
    (correctLetter : LetterEntry)
    (shuffleDecoys shuffleOptions : List LetterEntry → List LetterEntry) :
    List LetterEntry :=
  let wrongLetters := (shuffleDecoys (allLetters.filter (fun l => l.id != letterId))).take 3
  shuffleOptions (correctLetter :: wrongLetters)

/-- `App.js` `startReview`, option-building part:
`wrongOptions = allLetters.filter(l => l.id !== item.unit_id).sort(shuffle).slice(0, 2)`
then `[targetLetter, ...wrongOptions].sort(shuffle)`.  Note the source
comment says "Generate 3 wrong options" but the slice takes only 2. -/
def startReviewOptions (allLetters : List LetterEntry) (unitId : Nat)
    (targetLetter : LetterEntry)
    (shuffleDecoys shuffleOptions : List LetterEntry → List LetterEntry) :
    List LetterEntry :=
  let wrongOptions := (shuffleDecoys (allLetters.filter (fun l => l.id != unitId))).take 2
  shuffleOptions (targetLetter :: wrongOptions)

/-- A concrete 28-entry catalog with the ids `1..28`, used as evaluation
input; the display strings are irrelevant to the option-building logic. -/
def catalog28 : List LetterEntry :=
  (List.range 28).map (fun i => ⟨i + 1, "", "", ""⟩)

/-- `App.js` `submitReviewAnswer`, client-side scoring:
`correct = selectedAnswer === quizData.target_letter.id; score = correct ? 100 : 0`. -/
def reviewScore (selectedAnswer targetId : Nat) : Nat :=
  if selectedAnswer == targetId then 100 else 0

/-- Modelled from the spec: tunable quiz-engine configuration.  The pass
threshold defaults to 80; the retry-penalty step and score floor are
explicitly left as configuration by the design document. -/
structure QuizConfig where
  minScoreRequired : Nat
  retryPenaltyStep : Nat
  scoreFloor : Nat
  xpAward : Nat
deriving Repr, DecidableEq

/-- The default configuration: pass threshold 80 (the only confirmed
default), with a 10-point retry step, a floor of 60 and the 50 XP award the
client displays. -/
def defaultQuizConfig : QuizConfig :=
  ⟨80, 10, 60, 50⟩

/-- The result document of a quiz submission (`correct`, `score`,
`xp_delta`, `can_proceed`, `min_score_required`). -/
structure QuizResult where
  correct : Bool
  score : Nat
  xpDelta : Nat
  canProceed : Bool
  minScoreRequired : Nat
deriving Repr, DecidableEq

/-- Modelled from the spec: the quiz submission handler behind
`POST /api/quiz/answer` is not among the checked sources.  Per the design
document: the score is the attempt ceiling (100 minus the per-retry penalty,
floored) on a correct answer and 0 on an incorrect answer, with no partial
credit; `canProceed` holds iff the score reaches `minScoreRequired`; the XP
delta is granted only when `canProceed` holds. -/
def submitAnswer (cfg : QuizConfig) (targetLetterId selectedLetterId priorAttempts : Nat) :
    QuizResult :=
  let correct := selectedLetterId == targetLetterId
  let ceiling := max (100 - cfg.retryPenaltyStep * priorAttempts) cfg.scoreFloor
  let score := if correct then ceiling else 0
  let canProceed := decide (cfg.minScoreRequired ≤ score)
  ⟨correct, score, if canProceed then cfg.xpAward else 0, canProceed, cfg.minScoreRequired⟩

/-- Modelled from the spec: how a quiz submission updates the stored
`ProgressRecord` (the handler is not among the checked sources).  Per the
design document: the score reflects the most recent submission, attempts
increase by one, and XP is credited only when `canProceed` holds and the
existing record is not already `completed` — an already-completed record
keeps its `xp_earned` unchanged. -/
def applySubmission (existing : Option ProgressRecord) (letterId : Nat)
    (r : QuizResult) (now : Nat) : ProgressRecord :=
  match existing with
  | none =>
      ⟨letterId, r.canProceed, r.score, 1,
        if r.canProceed then r.xpDelta else 0, now⟩
  | some p =>
      ⟨letterId, p.completed || r.canProceed, r.score, p.attempts + 1,
        if r.canProceed && !p.completed then p.xp_earned + r.xpDelta else p.xp_earned, now⟩

/-- The origin of a synthesized-audio response. -/
inductive TTSSource where
| cache
| provider
| browserFallback
deriving Repr, DecidableEq

/-- An audio response: its source tag and, when available, a reference to
the audio payload. -/
structure AudioResponse where
  source : TTSSource
  audioRef : Option String
deriving Repr, DecidableEq

/-- The audio cache, keyed by the exact requested text. -/
def cacheLookup (cache : List (String × String)) (text : String) :
    Option (String × String) :=
  cache.find? (fun kv => kv.1 == text)

/-- Modelled from the spec: the TTS generation endpoint behind
`POST /tts/generate` is not among the checked sources.  Per the design
document: check the cache keyed by exact text first; on a miss call the
external TTS provider and store the result in the cache before returning; on
provider failure signal the caller to use on-device speech synthesis.
`providerResult` is the provider's outcome for this text (`none` = failure).
The result carries the response, the updated cache, and whether the provider
was called. -/
def getAudio (cache : List (String × String)) (text : String)
    (providerResult : Option String) :
    AudioResponse × List (String × String) × Bool :=
  match cacheLookup cache text with
  | some kv => (⟨TTSSource.cache, some kv.2⟩, cache, false)
  | none =>
      match providerResult with
      | some audio => (⟨TTSSource.provider, some audio⟩, (text, audio) :: cache, true)
      | none => (⟨TTSSource.browserFallback, none⟩, cache, true)

/-- One entry of the tutor chat transcript: its role tag
(`"user"`, `"ai"` or `"error"`) and its text. -/
structure ChatMsg where
  role : String
  content : String
deriving Repr, DecidableEq

/-- The outcome of one chat-completion API call. -/
inductive TutorResult where
| success (reply : String)
| failure
deriving Repr, DecidableEq

/-- JavaScript `String.prototype.trim`, modelled over the character list:
whitespace is stripped from both ends. -/
def jsTrim (s : String) : String :=
  ⟨((s.data.dropWhile Char.isWhitespace).reverse.dropWhile Char.isWhitespace).reverse⟩

/-- `App.js` `AITutorChat.sendMessage`: an empty (after trimming) message or
an in-flight call is ignored; otherwise the trimmed user message is appended
to the transcript and one chat-completion call is made.  On success the
reply is appended as an `"ai"` entry; on failure a generic apology is
appended as an `"error"` entry.  The second component counts the
chat-completion calls made by the turn (the source performs no retry). -/
def sendMessage (chatHistory : List ChatMsg) (message : String) (isLoading : Bool)
    (apiResult : TutorResult) : List ChatMsg × Nat :=
  if jsTrim message == "" || isLoading then (chatHistory, 0)
  else
    match apiResult with
    | TutorResult.success reply =>
        (chatHistory ++ [⟨"user", jsTrim message⟩, ⟨"ai", reply⟩], 1)
    | TutorResult.failure =>
        (chatHistory ++ [⟨"user", jsTrim message⟩,
          ⟨"error", "Sorry, I encountered an error. Please try again."⟩], 1)

/-- Modelled from the spec: the ai-tutor endpoint's `ChatExchange`
persistence is not among the checked sources.  Per the design document the
exchange log gains an entry only when the provider call succeeds; on
provider error no `ChatExchange` is recorded for the failed turn. -/
def recordExchange (log : List (String × String)) (userMessage : String)
    (apiResult : TutorResult) : List (String × String) :=
  match apiResult with
  | TutorResult.success reply => log ++ [(userMessage, reply)]
  | TutorResult.failure => log

/-- One review-queue entry: the letter, the reason tag
(`"low-score"` or `"stale"`) and a priority ordinal (lower is earlier). -/
structure ReviewQueueItem where
  letter_id : Nat
  reasonTag : String
  priority : Nat
deriving Repr, DecidableEq

/-- Ordered insertion for a Boolean comparison, used to sort queue
candidates. -/
def insertLE {α : Type} (le : α → α → Bool) (x : α) : List α → List α
  | [] => [x]
  | y :: ys => if le x y then x :: y :: ys else y :: insertLE le x ys

/-- Insertion sort for a Boolean comparison. -/
def sortByLE {α : Type} (le : α → α → Bool) : List α → List α
  | [] => []
  | x :: xs => insertLE le x (sortByLE le xs)

/-- Modelled from the spec: the review-queue endpoint behind
`GET /review/queue` is not among the checked sources.  Per the design
document: candidates are the records with `completed = true`; a candidate
qualifies when its score is below the comfortable-mastery threshold or it
has not been updated within the staleness window; low-score items outrank
stale-only items, with ties broken by lowest score then oldest update. -/
def computeReviewQueue (progress : List ProgressRecord)
    (now comfortThreshold staleWindow : Nat) : List ReviewQueueItem :=
  let candidates := progress.filter (fun p => p.completed)
  let lowScore := candidates.filter (fun p => decide (p.score < comfortThreshold))
  let staleOnly := candidates.filter
    (fun p => !(decide (p.score < comfortThreshold)) && decide (p.last_updated + staleWindow < now))
  let lowSorted := sortByLE
    (fun a b => decide (a.score < b.score) ||
      (a.score == b.score && decide (a.last_updated ≤ b.last_updated)))
    lowScore
  let staleSorted := sortByLE (fun a b => decide (a.last_updated ≤ b.last_updated)) staleOnly
  lowSorted.map (fun p => ⟨p.letter_id, "low-score", 0⟩) ++
    staleSorted.map (fun p => ⟨p.letter_id, "stale", 1⟩)

/-- The JSON body the lesson player posts to `/api/progress`. -/
structure ProgressPost where
  letter_id : Nat
  completed : Bool
  score : Nat
  attempts : Nat
  xp_earned : Nat
deriving Repr, DecidableEq

/-- `App.js` `LessonPlayer.markAsCompleted`: posts a fixed progress update
for the current letter.  The function reads no progress state — the call
site performs neither a gating check nor a check of an existing `completed`
flag. -/
def markAsCompleted (letterId : Nat) : ProgressPost :=
  ⟨letterId, true, 100, 1, 50⟩

/-- A previous/next navigation request in the lesson player. -/
inductive NavDirection where
| next
| prev
deriving Repr, DecidableEq

/-- `App.js` `LessonPlayer.navigateToLetter`: compute the adjacent letter id
and navigate only when it lies within `1..28`; out-of-range requests are
ignored (`none`). -/
def navigateToLetter (letterId : Int) (direction : NavDirection) : Option Int :=
  let newId := match direction with
    | NavDirection.next => letterId + 1
    | NavDirection.prev => letterId - 1
  if 1 ≤ newId ∧ newId ≤ 28 then some newId else none

/-- Helper: when the progress list carries distinct letter ids, the
`completed` flag that `canAccessLetter` reads off the found record agrees
with the existence of a completed record for that letter. -/
theorem getD_completed_iff (progress : List ProgressRecord) (m : Nat)
    (hnd : (progress.map ProgressRecord.letter_id).Nodup) :
    ((getProgressForLetter progress m).map ProgressRecord.completed).getD false = true ↔
      ∃ r ∈ progress, r.letter_id = m ∧ r.completed = true := by
  unfold getProgressForLetter
  constructor
  · intro h
    cases hfind : progress.find? (fun p => p.letter_id == m) with
    | none => rw [hfind] at h; simp at h
    | some r =>
        rw [hfind] at h
        simp only [Option.map_some', Option.getD_some] at h
        have hmem := List.mem_of_find?_eq_some hfind
        have hpred := List.find?_some hfind
        simp only [beq_iff_eq] at hpred
        exact ⟨r, hmem, hpred, h⟩
  · rintro ⟨r, hmem, hid, hc⟩
    have hsome : (progress.find? (fun p => p.letter_id == m)).isSome := by
      rw [List.find?_isSome]
      exact ⟨r, hmem, by simp [hid]⟩
    cases hfind : progress.find? (fun p => p.letter_id == m) with
    | none => rw [hfind] at hsome; simp at hsome
    | some r0 =>
        have hmem0 := List.mem_of_find?_eq_some hfind
        have hpred0 := List.find?_some hfind
        simp only [beq_iff_eq] at hpred0
        have heq : r = r0 :=
          List.inj_on_of_nodup_map hnd hmem hmem0 (by rw [hid, hpred0])
        simp [← heq, hc]

/-- Helper: characterization of `canAccessLetter` for letters beyond the
first, assuming distinct letter ids in the progress list. -/
theorem canAccessLetter_iff (progress : List ProgressRecord) (n : Nat)
    (hnd : (progress.map ProgressRecord.letter_id).Nodup) (hn : 1 < n) :
    canAccessLetter progress n = true ↔
      ∃ r ∈ progress, r.letter_id = n - 1 ∧ r.completed = true := by
  have hne : (n == 1) = false := by
    simp only [beq_eq_false_iff_ne]
    omega
  unfold canAccessLetter
  rw [hne]
  simp only [Bool.false_eq_true, if_false]
  exact getD_completed_iff progress (n - 1) hnd

/-- **C1.** For a progress list with distinct letter ids (the data model
keys records by letter): `canAccessLetter` returns `true` for letter 1, and
for `n > 1` it returns `true` iff a record for letter `n − 1` exists with
`completed = true`; a missing record yields `false` (the lookup is total,
not an error). -/
theorem canAccessLetter_gating (progress : List ProgressRecord) (n : Nat)
    (hnd : (progress.map ProgressRecord.letter_id).Nodup) (hn : 1 < n) :
    canAccessLetter progress 1 = true ∧
      (canAccessLetter progress n = true ↔
        ∃ r ∈ progress, r.letter_id = n - 1 ∧ r.completed = true) :=
  ⟨rfl, canAccessLetter_iff progress n hnd hn⟩

/-- Witness for C1: a single completed record for letter 1 unlocks
letter 2. -/
theorem canAccessLetter_gating_witness :
    canAccessLetter [⟨1, true, 100, 1, 50, 0⟩] 1 = true ∧
      (canAccessLetter [⟨1, true, 100, 1, 50, 0⟩] 2 = true ↔
        ∃ r ∈ [(⟨1, true, 100, 1, 50, 0⟩ : ProgressRecord)],
          r.letter_id = 2 - 1 ∧ r.completed = true) :=
  canAccessLetter_gating [⟨1, true, 100, 1, 50, 0⟩] 2 (by decide) (by decide)

/-- **C2, counterexample.** The claim as stated fails: with a progress list
whose only record marks letter 2 completed, letter 3 is reported unlocked
even though letter 2 itself is locked — `canAccessLetter` consults only the
immediate predecessor's record. -/
theorem canAccessLetter_chain_cex :
    canAccessLetter [⟨2, true, 100, 1, 50, 0⟩] 3 = true ∧
      canAccessLetter [⟨2, true, 100, 1, 50, 0⟩] 2 = false := by
  decide

/-- **C2, amended.** For a progress list with distinct letter ids that is
prefix-closed (every completed letter beyond the first has its predecessor
completed — the shape produced by normal operation), unlocking is chained:
for `n > 1`, `canAccessLetter n = true` implies both
`canAccessLetter (n − 1) = true` and that letter `n − 1`'s record has
`completed = true`. -/
theorem canAccessLetter_chain (progress : List ProgressRecord) (n : Nat)
    (hnd : (progress.map ProgressRecord.letter_id).Nodup)
    (hpc : PrefixClosed progress) (hn : 1 < n)
    (h : canAccessLetter progress n = true) :
    canAccessLetter progress (n - 1) = true ∧
      ∃ r ∈ progress, r.letter_id = n - 1 ∧ r.completed = true := by
  obtain ⟨r, hmem, hid, hc⟩ := (canAccessLetter_iff progress n hnd hn).mp h
  refine ⟨?_, r, hmem, hid, hc⟩
  by_cases h2 : n - 1 = 1
  · rw [h2]; rfl
  · have h1r : 1 < n - 1 := by omega
    rw [canAccessLetter_iff progress (n - 1) hnd h1r]
    obtain ⟨s, hmem', hid', hc'⟩ := hpc r hmem hc (by rw [hid]; omega)
    exact ⟨s, hmem', by rw [hid', hid], hc'⟩

/-- Witness for C2 (amended): letters 1 and 2 completed, letter 3 unlocked,
and the chain gives letter 2 unlocked with letter 2's record completed. -/
theorem canAccessLetter_chain_witness :
    canAccessLetter [⟨1, true, 100, 1, 50, 0⟩, ⟨2, true, 90, 1, 50, 0⟩] (3 - 1) = true ∧
      ∃ r ∈ [(⟨1, true, 100, 1, 50, 0⟩ : ProgressRecord), ⟨2, true, 90, 1, 50, 0⟩],
        r.letter_id = 3 - 1 ∧ r.completed = true :=
  canAccessLetter_chain [⟨1, true, 100, 1, 50, 0⟩, ⟨2, true, 90, 1, 50, 0⟩] 3
    (by decide) (by decide) (by decide) (by decide)

/-- **C3.** Evaluating the review-mode option builder on the seeded
28-entry catalog with target letter 1 (shuffles instantiated with the
identity permutation): it produces 3 options, not the 4 required — the
source's own comment announces "Generate 3 wrong options" while the slice
takes only 2 decoys. -/
theorem startReview_option_count :
    (startReviewOptions catalog28 1 ⟨1, "", "", ""⟩ id id).length = 3 ∧
      (startReviewOptions catalog28 1 ⟨1, "", "", ""⟩ id id).length ≠ 4 := by
  decide

/-- **C4.** XP crediting is idempotent: a submission against a record that
is already `completed` leaves `xp_earned` unchanged; a submission with
`canProceed = false` credits no XP, whether a record exists or not. -/
theorem xp_award_idempotent (p : ProgressRecord) (r : QuizResult) (letterId now : Nat) :
    (p.completed = true →
        (applySubmission (some p) letterId r now).xp_earned = p.xp_earned) ∧
      (r.canProceed = false →
        (applySubmission (some p) letterId r now).xp_earned = p.xp_earned) ∧
      (r.canProceed = false →
        (applySubmission none letterId r now).xp_earned = 0) := by
  refine ⟨?_, ?_, ?_⟩ <;> intro h <;> simp [applySubmission, h]

/-- Witness for C4: a passing re-submission against the already-completed
record of letter 1 keeps its 50 XP. -/
theorem xp_award_idempotent_witness :
    (applySubmission (some ⟨1, true, 100, 1, 50, 0⟩) 1 ⟨true, 100, 50, true, 80⟩ 7).xp_earned
      = (⟨1, true, 100, 1, 50, 0⟩ : ProgressRecord).xp_earned :=
  (xp_award_idempotent ⟨1, true, 100, 1, 50, 0⟩ ⟨true, 100, 50, true, 80⟩ 1 7).1 rfl

/-- **C5.** Scoring is binary: an incorrect answer scores 0 (both in the
modelled submission handler and in the in-source review scoring) and, for a
positive pass threshold (default 80), cannot proceed; `canProceed` holds iff
the score reaches `minScoreRequired`. -/
theorem submitAnswer_scoring (cfg : QuizConfig) (target sel prior : Nat) :
    (sel ≠ target →
        (submitAnswer cfg target sel prior).score = 0 ∧ reviewScore sel target = 0) ∧
      (sel ≠ target → 0 < cfg.minScoreRequired →
        (submitAnswer cfg target sel prior).canProceed = false) ∧
      ((submitAnswer cfg target sel prior).canProceed = true ↔
        cfg.minScoreRequired ≤ (submitAnswer cfg target sel prior).score) := by
  refine ⟨?_, ?_, ?_⟩
  · intro hne
    have hbe : (sel == target) = false := by simpa using hne
    simp [submitAnswer, reviewScore, hbe]
  · intro hne hpos
    have hbe : (sel == target) = false := by simpa using hne
    simp [submitAnswer, hbe]
    omega
  · simp [submitAnswer]

/-- Witness for C5 with the default configuration (threshold 80): selecting
letter 2 when letter 1 was asked scores 0 and cannot proceed. -/
theorem submitAnswer_scoring_witness :
    ((submitAnswer defaultQuizConfig 1 2 0).score = 0 ∧ reviewScore 2 1 = 0) ∧
      (submitAnswer defaultQuizConfig 1 2 0).canProceed = false :=
  ⟨(submitAnswer_scoring defaultQuizConfig 1 2 0).1 (by decide),
    (submitAnswer_scoring defaultQuizConfig 1 2 0).2.1 (by decide) (by decide)⟩

/-- **C6.** The audio adapter checks the cache first (a hit answers from the
cache without calling the provider), calls the provider only on a miss, and
a provider failure on a miss yields the browser-fallback source; the
function is total, so no failure escapes to the caller. -/
theorem getAudio_cache_and_fallback (cache : List (String × String)) (text : String)
    (providerResult : Option String) :
    (cacheLookup cache text = none → providerResult = none →
        (getAudio cache text providerResult).1.source = TTSSource.browserFallback) ∧
      (∀ kv, cacheLookup cache text = some kv →
        (getAudio cache text providerResult).1.source = TTSSource.cache ∧
          (getAudio cache text providerResult).2.2 = false) ∧
      ((getAudio cache text providerResult).2.2 = true →
        cacheLookup cache text = none) := by
  refine ⟨?_, ?_, ?_⟩
  · intro hc hp
    simp [getAudio, hc, hp]
  · intro kv hc
    simp [getAudio, hc]
  · intro hcall
    cases hc : cacheLookup cache text with
    | none => rfl
    | some kv => simp [getAudio, hc] at hcall

/-- Witness for C6, the spec's scenario: a provider failure for the text
"ب" with an empty cache yields the browser-fallback source. -/
theorem getAudio_cache_and_fallback_witness :
    (getAudio [] "ب" none).1.source = TTSSource.browserFallback :=
  (getAudio_cache_and_fallback [] "ب" none).1 rfl rfl

/-- **C7.** When the chat-completion call fails, the transcript gains the
user's message and the generic apology as an `"error"` entry (no `"ai"`
reply), exactly one provider call is made (no retry), and the exchange log
records nothing for the failed turn. -/
theorem sendMessage_failure_no_exchange (chatHistory : List ChatMsg) (message : String)
    (log : List (String × String)) (h : jsTrim message ≠ "") :
    (sendMessage chatHistory message false TutorResult.failure).1 =
        chatHistory ++ [⟨"user", jsTrim message⟩,
          ⟨"error", "Sorry, I encountered an error. Please try again."⟩] ∧
      (sendMessage chatHistory message false TutorResult.failure).2 = 1 ∧
      recordExchange log message TutorResult.failure = log := by
  have hb : (jsTrim message == "") = false := by
    rw [beq_eq_false_iff_ne]
    exact h
  simp [sendMessage, recordExchange, hb]

/-- Witness for C7: a failed turn for the message "hi" on an empty
transcript and empty exchange log. -/
theorem sendMessage_failure_no_exchange_witness :
    (sendMessage [] "hi" false TutorResult.failure).1 =
        [] ++ [⟨"user", jsTrim "hi"⟩,
          ⟨"error", "Sorry, I encountered an error. Please try again."⟩] ∧
      (sendMessage [] "hi" false TutorResult.failure).2 = 1 ∧
      recordExchange [] "hi" TutorResult.failure = [] :=
  sendMessage_failure_no_exchange [] "hi" [] (by decide)

/-- Helper: insertion keeps exactly the elements. -/
theorem mem_insertLE {α : Type} (le : α → α → Bool) (x a : α) (l : List α) :
    a ∈ insertLE le x l ↔ a = x ∨ a ∈ l := by
  induction l with
  | nil => simp [insertLE]
  | cons y ys ih =>
      simp only [insertLE]
      split
      · simp
      · simp only [List.mem_cons, ih]
        tauto

/-- Helper: sorting keeps exactly the elements. -/
theorem mem_sortByLE {α : Type} (le : α → α → Bool) (a : α) (l : List α) :
    a ∈ sortByLE le l ↔ a ∈ l := by
  induction l with
  | nil => simp [sortByLE]
  | cons x xs ih => simp [sortByLE, mem_insertLE, ih]

/-- **C8.** Every entry of the computed review queue comes from a progress
record with `completed = true`: letters that are uncompleted or never
attempted are never enqueued. -/
theorem computeReviewQueue_only_completed (progress : List ProgressRecord)
    (now comfortThreshold staleWindow : Nat) (item : ReviewQueueItem)
    (hmem : item ∈ computeReviewQueue progress now comfortThreshold staleWindow) :
    ∃ p ∈ progress, p.letter_id = item.letter_id ∧ p.completed = true := by
  simp only [computeReviewQueue, List.mem_append, List.mem_map, mem_sortByLE,
    List.mem_filter] at hmem
  rcases hmem with ⟨p, ⟨⟨hp, hcomp⟩, -⟩, rfl⟩ | ⟨p, ⟨⟨hp, hcomp⟩, -⟩, rfl⟩
  · exact ⟨p, hp, rfl, hcomp⟩
  · exact ⟨p, hp, rfl, hcomp⟩

/-- Witness for C8: with one completed low-scoring record for letter 3, the
queue's low-score entry for letter 3 traces back to that completed
record. -/
theorem computeReviewQueue_only_completed_witness :
    ∃ p ∈ [(⟨3, true, 70, 1, 50, 0⟩ : ProgressRecord)],
      p.letter_id = (⟨3, "low-score", 0⟩ : ReviewQueueItem).letter_id ∧ p.completed = true :=
  computeReviewQueue_only_completed [⟨3, true, 70, 1, 50, 0⟩] 0 90 1000
    ⟨3, "low-score", 0⟩ (by decide)

/-- **C9.** For every letter id in `1..28`, the lesson player's completion
action posts the fixed update `completed = true`, `score = 100`,
`attempts = 1`, `xp_earned = 50`; the post is the same even when the letter
is locked under the current progress list — the call site checks neither
gating nor an existing `completed` flag. -/
theorem markAsCompleted_unconditional (progress : List ProgressRecord) (letterId : Nat)
    (_h1 : 1 ≤ letterId) (_h2 : letterId ≤ 28) :
    markAsCompleted letterId = ⟨letterId, true, 100, 1, 50⟩ ∧
      (canAccessLetter progress letterId = false →
        markAsCompleted letterId = ⟨letterId, true, 100, 1, 50⟩) :=
  ⟨rfl, fun _ => rfl⟩

/-- Witness for C9: letter 5 is locked under the empty progress list, yet
the completion action still posts the fixed update. -/
theorem markAsCompleted_unconditional_witness :
    markAsCompleted 5 = ⟨5, true, 100, 1, 50⟩ :=
  (markAsCompleted_unconditional [] 5 (by decide) (by decide)).2 (by decide)

/-- **C10.** Starting from a letter id in `1..28`, any previous/next
navigation that does fire lands on a letter id again in `1..28`;
requests that would leave the range produce no navigation. -/
theorem navigateToLetter_in_range (letterId : Int) (direction : NavDirection)
    (h1 : 1 ≤ letterId) (h2 : letterId ≤ 28) :
    ∀ m ∈ navigateToLetter letterId direction, 1 ≤ m ∧ m ≤ 28 := by
  intro m hmem
  cases direction <;>
    simp only [navigateToLetter, Option.mem_def] at hmem <;>
    split at hmem <;>
    simp_all <;>
    omega

/-- Witness for C10: navigating next from letter 5 lands on letter 6,
inside the range. -/
theorem navigateToLetter_in_range_witness :
    (6 : Int) ∈ navigateToLetter 5 NavDirection.next ∧ ((1 : Int) ≤ 6 ∧ (6 : Int) ≤ 28) :=
  ⟨by decide, navigateToLetter_in_range 5 NavDirection.next (by decide) (by decide) 6 (by decide)⟩

end Emergent
